import Mathlib

/-!
Shallow embedding of the storage/query layer of the StudentTrackManager
repository (`server/storage.ts`, `server/auth.ts`, `shared/schema.ts`).

Modelling conventions:
* TypeScript `string` is `String`, `number` used as an integer is `Nat`,
  `T | null` / optional fields are `Option T`.
* A JavaScript `Map` is an association list that preserves insertion order;
  `Map.set` replaces in place when the key exists and appends otherwise,
  matching JS `Map` semantics.
* `Date.now()` / `new Date()` are passed in explicitly as a `Nat` clock value.
* `String.prototype.localeCompare` on already-lowercased strings is modelled
  as the code-point (lexicographic) order on `String`.
* `Array.prototype.sort` with a comparator is stable (ES2019), modelled by
  `List.insertionSort` over the "comparator ≤ 0" relation.
* JS truthiness on an optional string/number (`if (x)`) is `x ≠ none` and
  `x ≠ some ""` / `x ≠ some 0`.
-/

namespace StudentTrack

/-- The `Student` record as stored by the backends (`shared/schema.ts`
`students` table / the converted Mongo document).  `status` is kept as a raw
`String`: the three-value enumeration is a runtime invariant, not a static
type, in the embedded code. -/
structure Student where
  id : Nat
  studentId : String
  firstName : String
  lastName : String
  email : String
  phone : Option String
  grade : Nat
  classSection : Option String
  address : Option String
  notes : Option String
  status : String
  userId : Option Nat
deriving DecidableEq, Repr

/-- `InsertStudent` (the zod insert schema: no `id`, no `userId`; `studentId`
and `status` may be absent, `status` defaults downstream). -/
structure InsertStudent where
  studentId : Option String := none
  firstName : String
  lastName : String
  email : String
  phone : Option String := none
  grade : Nat
  classSection : Option String := none
  address : Option String := none
  notes : Option String := none
  status : Option String := none
deriving DecidableEq, Repr

/-- `Partial<InsertStudent>`: every field optional; `none` models an absent
key. -/
structure PartialInsertStudent where
  studentId : Option String := none
  firstName : Option String := none
  lastName : Option String := none
  email : Option String := none
  phone : Option String := none
  grade : Option Nat := none
  classSection : Option String := none
  address : Option String := none
  notes : Option String := none
  status : Option String := none
deriving DecidableEq, Repr

/-- The `User` record (`shared/schema.ts` `users` table).  `createdAt` and
`lastLogin` are clock values. -/
structure User where
  id : Nat
  username : String
  password : String
  role : String
  createdAt : Nat
  lastLogin : Option Nat
deriving DecidableEq, Repr

/-- `InsertUser` (no `id`, `createdAt`, `lastLogin`; `role` optional with a
downstream default). -/
structure InsertUser where
  username : String
  password : String
  role : Option String := none
deriving DecidableEq, Repr

/-- `StudentFilters` from `server/storage.ts`: every field optional. -/
structure StudentFilters where
  status : Option String := none
  grade : Option Nat := none
  search : Option String := none
  sort : Option String := none
  page : Option Nat := none
  limit : Option Nat := none
deriving DecidableEq, Repr

/-- `StudentStats` (`shared/schema.ts`). -/
structure StudentStats where
  totalStudents : Nat
  activeStudents : Nat
  pendingApprovals : Nat
  issuesReported : Nat
deriving DecidableEq, Repr

/-- The status enumeration checked at runtime by
`["active", "inactive", "pending"].includes(...)`. -/
def validStatuses : List String := ["active", "inactive", "pending"]

/-- The role enumeration checked at runtime by
`["admin", "student"].includes(...)`. -/
def validRoles : List String := ["admin", "student"]

/-- JS truthiness of an optional string (`undefined` and `""` are falsy). -/
def truthyStr : Option String → Bool
  | none => false
  | some s => s ≠ ""

/-- JS truthiness of an optional number (`undefined` and `0` are falsy). -/
def truthyNat : Option Nat → Bool
  | none => false
  | some n => n ≠ 0

/-- `x || null` on an optional string field: `undefined` and `""` become
`null`. -/
def orNull : Option String → Option String
  | none => none
  | some s => if s = "" then none else some s

/-- `toLowerCase()`, as the character-wise lowering of the underlying
character list. -/
def strToLower (s : String) : String :=
  String.mk (s.data.map Char.toLower)

/-- Lexicographic (code-point) comparison of character lists:
`charListLe x y` is "x compares less than or equal to y", the `≤ 0` outcome
of `localeCompare` under the code-point modelling of that comparison. -/
def charListLe : List Char → List Char → Bool
  | [], _ => true
  | _ :: _, [] => false
  | a :: as, b :: bs =>
    if a < b then true
    else if b < a then false
    else charListLe as bs

/-- `a.localeCompare(b) <= 0` on whole strings. -/
def strLe (a b : String) : Bool :=
  charListLe a.data b.data

/-- JS `String.prototype.split(sep)` for a one-character separator,
implemented by structural recursion on the character list. -/
def splitCharAux (sep : Char) : List Char → List Char → List (List Char)
  | [], acc => [acc.reverse]
  | c :: cs, acc =>
    if c = sep then acc.reverse :: splitCharAux sep cs []
    else splitCharAux sep cs (c :: acc)

/-- `s.split(sep)` (JS semantics: `""` splits to `[""]`, trailing separator
yields a trailing empty piece). -/
def splitChar (sep : Char) (s : String) : List String :=
  (splitCharAux sep s.data []).map String.mk

/-- JS `Map.get`. -/
def mapGet {α : Type} (m : List (Nat × α)) (k : Nat) : Option α :=
  (m.find? (fun p => p.1 = k)).map Prod.snd

/-- JS `Map.set`: replace in place if the key is present, append otherwise. -/
def mapSet {α : Type} (m : List (Nat × α)) (k : Nat) (v : α) : List (Nat × α) :=
  if m.any (fun p => p.1 = k) then
    m.map (fun p => if p.1 = k then (k, v) else p)
  else m ++ [(k, v)]

/-- JS `Map.delete`: remove the key, report whether it was present. -/
def mapDelete {α : Type} (m : List (Nat × α)) (k : Nat) : Bool × List (Nat × α) :=
  if m.any (fun p => p.1 = k) then (true, m.filter (fun p => p.1 ≠ k))
  else (false, m)

/-- State of `MemStorage`: the two insertion-ordered maps and the three
counters. -/
structure MemState where
  students : List (Nat × Student)
  users : List (Nat × User)
  currentId : Nat
  currentStudentIdNum : Nat
  currentUserId : Nat
deriving DecidableEq, Repr

/-- The `MemStorage` constructor. -/
def MemState.init : MemState :=
  { students := [], users := [], currentId := 1, currentStudentIdNum := 10001,
    currentUserId := 1 }

/-- `Array.from(this.students.values())`. -/
def MemState.studentList (st : MemState) : List Student :=
  st.students.map Prod.snd

/-- `` `${a.firstName} ${a.lastName}`.toLowerCase() `` — the sort key of the
name comparator. -/
def fullNameLower (s : Student) : String :=
  strToLower (s.firstName ++ " " ++ s.lastName)

/-- The "comparator ≤ 0" relation of the ascending name sort
(`nameA.localeCompare(nameB)` with multiplier `1`). -/
def nameLe (a b : Student) : Prop := strLe (fullNameLower a) (fullNameLower b) = true

instance : DecidableRel nameLe := fun a b =>
  inferInstanceAs (Decidable (strLe (fullNameLower a) (fullNameLower b) = true))

/-- The "comparator ≤ 0" relation of the descending name sort (multiplier
`-1`). -/
def nameGe (a b : Student) : Prop := strLe (fullNameLower b) (fullNameLower a) = true

instance : DecidableRel nameGe := fun a b =>
  inferInstanceAs (Decidable (strLe (fullNameLower b) (fullNameLower a) = true))

/-- Ascending `studentId` comparator relation. -/
def codeLe (a b : Student) : Prop := strLe a.studentId b.studentId = true

instance : DecidableRel codeLe := fun a b =>
  inferInstanceAs (Decidable (strLe a.studentId b.studentId = true))

/-- Descending `studentId` comparator relation. -/
def codeGe (a b : Student) : Prop := strLe b.studentId a.studentId = true

instance : DecidableRel codeGe := fun a b =>
  inferInstanceAs (Decidable (strLe b.studentId a.studentId = true))

/-- JS `hay.includes(needle)`: `needle` occurs as a contiguous substring of
`hay`, modelled on the character lists. -/
def strIncludes (hay needle : String) : Bool :=
  decide (needle.data <:+: hay.data)

/-- The `// Apply filters` block of `MemStorage.getStudents`: status filter,
then grade filter, then search filter, each guarded by the JS truthiness of
its filter field. -/
def applyFilters (f : StudentFilters) (l : List Student) : List Student :=
  let l :=
    if truthyStr f.status ∧ f.status ≠ some "all" then
      l.filter (fun s => s.status = f.status.getD "")
    else l
  let l :=
    if truthyNat f.grade then l.filter (fun s => some s.grade = f.grade)
    else l
  if truthyStr f.search then
    let searchLower := strToLower (f.search.getD "")
    l.filter (fun s =>
      strIncludes (strToLower s.firstName) searchLower ||
      strIncludes (strToLower s.lastName) searchLower ||
      strIncludes (strToLower s.email) searchLower ||
      strIncludes (strToLower s.studentId) searchLower)
  else l

/-- The `// Apply sorting` block of `MemStorage.getStudents`:
`filters.sort` truthy → split on `_`; field `name` or `id` selects a
comparator (direction ≠ `asc` means descending), any other field leaves the
array untouched; `filters.sort` falsy → default sort by lowercased full
name ascending. -/
def applySort (sort : Option String) (l : List Student) : List Student :=
  if truthyStr sort then
    let parts := splitChar '_' (sort.getD "")
    let field := parts.headD ""
    let direction := (parts.drop 1).headD ""
    if field = "name" then
      if direction = "asc" then l.insertionSort nameLe
      else l.insertionSort nameGe
    else if field = "id" then
      if direction = "asc" then l.insertionSort codeLe
      else l.insertionSort codeGe
    else l
  else l.insertionSort nameLe

/-- The `// Apply pagination` block: slice `[(page-1)*limit, page*limit)`
when both `page` and `limit` are truthy. -/
def applyPagination (page limit : Option Nat) (l : List Student) : List Student :=
  if truthyNat page ∧ truthyNat limit then
    let p := page.getD 0
    let n := limit.getD 0
    (l.drop ((p - 1) * n)).take n
  else l

/-- `MemStorage.getStudents`. -/
def MemState.getStudents (st : MemState) (f : StudentFilters) : List Student :=
  applyPagination f.page f.limit (applySort f.sort (applyFilters f st.studentList))

/-- `MemStorage.getStudent`. -/
def MemState.getStudent (st : MemState) (id : Nat) : Option Student :=
  mapGet st.students id

/-- `MemStorage.getStudentById` (lookup by student code). -/
def MemState.getStudentById (st : MemState) (studentId : String) : Option Student :=
  st.studentList.find? (fun s => s.studentId = studentId)

/-- The status validation of `MemStorage.createStudent`: a truthy supplied
status that is one of the allowed values is kept, anything else falls back
to `"active"`. -/
def validateStatusCreate (requested : Option String) : String :=
  match requested with
  | some s => if s ≠ "" ∧ s ∈ validStatuses then s else "active"
  | none => "active"

/-- `MemStorage.createStudent`: assign `currentId++`, auto-generate the
student code from `currentStudentIdNum++` when the supplied one is falsy,
validate the status, normalize optional fields with `|| null`, store. -/
def MemState.createStudent (st : MemState) (s : InsertStudent) :
    Student × MemState :=
  let id := st.currentId
  let st := { st with currentId := st.currentId + 1 }
  let (studentId, st) :=
    if truthyStr s.studentId then (s.studentId.getD "", st)
    else ("ST" ++ toString st.currentStudentIdNum,
      { st with currentStudentIdNum := st.currentStudentIdNum + 1 })
  let newStudent : Student :=
    { id := id
      studentId := studentId
      firstName := s.firstName
      lastName := s.lastName
      email := s.email
      grade := s.grade
      phone := orNull s.phone
      classSection := orNull s.classSection
      address := orNull s.address
      notes := orNull s.notes
      status := validateStatusCreate s.status
      userId := none }
  (newStudent, { st with students := mapSet st.students id newStudent })

/-- The status validation of `MemStorage.updateStudent`: a truthy supplied
status that is one of the allowed values replaces the stored one, anything
else keeps the previous status. -/
def validateStatusUpdate (requested : Option String) (previous : String) : String :=
  match requested with
  | some s => if s ≠ "" ∧ s ∈ validStatuses then s else previous
  | none => previous

/-- `MemStorage.updateStudent`: absent id → `undefined` and no state change;
otherwise spread the supplied fields (minus `status`) over the stored
record and apply the validated status. -/
def MemState.updateStudent (st : MemState) (id : Nat) (d : PartialInsertStudent) :
    Option Student × MemState :=
  match mapGet st.students id with
  | none => (none, st)
  | some student =>
    let updated : Student :=
      { id := student.id
        studentId := d.studentId.getD student.studentId
        firstName := d.firstName.getD student.firstName
        lastName := d.lastName.getD student.lastName
        email := d.email.getD student.email
        phone := (d.phone.map some).getD student.phone
        grade := d.grade.getD student.grade
        classSection := (d.classSection.map some).getD student.classSection
        address := (d.address.map some).getD student.address
        notes := (d.notes.map some).getD student.notes
        status := validateStatusUpdate d.status student.status
        userId := student.userId }
    (some updated, { st with students := mapSet st.students id updated })

/-- `MemStorage.deleteStudent`. -/
def MemState.deleteStudent (st : MemState) (id : Nat) : Bool × MemState :=
  let (found, m) := mapDelete st.students id
  (found, { st with students := m })

/-- `MemStorage.getStudentStats`. -/
def MemState.getStudentStats (st : MemState) : StudentStats :=
  let students := st.studentList
  { totalStudents := students.length
    activeStudents := (students.filter (fun s => s.status = "active")).length
    pendingApprovals := (students.filter (fun s => s.status = "pending")).length
    issuesReported := (students.filter (fun s => s.status = "inactive")).length }

/-- `MemStorage.getUser`. -/
def MemState.getUser (st : MemState) (id : Nat) : Option User :=
  mapGet st.users id

/-- `MemStorage.getUserByUsername`. -/
def MemState.getUserByUsername (st : MemState) (username : String) : Option User :=
  (st.users.map Prod.snd).find? (fun u => u.username = username)

/-- The role validation of `MemStorage.createUser`. -/
def validateRole (requested : Option String) : String :=
  match requested with
  | some r => if r ≠ "" ∧ r ∈ validRoles then r else "student"
  | none => "student"

/-- `MemStorage.createUser`; `now` models `new Date()`. -/
def MemState.createUser (st : MemState) (u : InsertUser) (now : Nat) :
    User × MemState :=
  let id := st.currentUserId
  let newUser : User :=
    { id := id
      username := u.username
      password := u.password
      role := validateRole u.role
      createdAt := now
      lastLogin := none }
  (newUser,
    { st with currentUserId := st.currentUserId + 1
              users := mapSet st.users id newUser })

/-- `Partial<User>` for `MemStorage.updateUser`. -/
structure PartialUser where
  id : Option Nat := none
  username : Option String := none
  password : Option String := none
  role : Option String := none
  createdAt : Option Nat := none
  lastLogin : Option (Option Nat) := none
deriving DecidableEq, Repr

/-- `MemStorage.updateUser`: plain spread of the supplied fields, no
validation. -/
def MemState.updateUser (st : MemState) (id : Nat) (d : PartialUser) :
    Option User × MemState :=
  match mapGet st.users id with
  | none => (none, st)
  | some user =>
    let updated : User :=
      { id := d.id.getD user.id
        username := d.username.getD user.username
        password := d.password.getD user.password
        role := d.role.getD user.role
        createdAt := d.createdAt.getD user.createdAt
        lastLogin := d.lastLogin.getD user.lastLogin }
    (some updated, { st with users := mapSet st.users id updated })

/-! ### Auth adapter (`server/auth.ts`) -/

/-- `comparePasswords`: direct string comparison, no hashing. -/
def comparePasswords (supplied stored : String) : Bool :=
  supplied == stored

/-- The two outcomes of the passport `LocalStrategy` callback:
`done(null, user)` on success, `done(null, false)` on failure.  Both failure
branches (unknown user, wrong password) produce the same value. -/
inductive AuthResult where
  | ok (user : User)
  | rejected
deriving DecidableEq, Repr

/-- The `LocalStrategy` verify callback: look the user up by username, fail
on a missing user, fail on a password mismatch, succeed with the user
record. -/
def localStrategy (st : MemState) (username password : String) : AuthResult :=
  match st.getUserByUsername username with
  | none => .rejected
  | some user =>
    if comparePasswords password user.password then .ok user else .rejected

/-! ### MongoStorage with its cache (`server/storage.ts`)

The document store itself is external; what is modelled from the source is
the query each method builds (filter/sort/skip/limit arguments), the
`convertToStudent` conversion, the schema validation that makes a save fail
(`required`, `unique`, `enum` in the schema declaration), and the cache
discipline (`getCached`/`setCache`/`invalidateCache`).  The numeric id
derived from the hex prefix of a backend `ObjectId` is abstracted as a
backend-assigned counter `nextOid`. -/

/-- The payloads stored in `MongoStorage`'s cache map. -/
inductive CacheVal where
  | studentsVal (l : List Student)
  | studentVal (s : Student)
  | statsVal (st : StudentStats)
  | userVal (u : User)
deriving DecidableEq, Repr

/-- `cacheTTL = 60000` (one minute). -/
def cacheTTL : Nat := 60000

/-- `getCached`: return the entry while `now - timestamp < cacheTTL`. -/
def getCached (cache : List (String × CacheVal × Nat)) (key : String)
    (now : Nat) : Option CacheVal :=
  match cache.find? (fun e => e.1 = key) with
  | some (_, v, ts) => if now - ts < cacheTTL then some v else none
  | none => none

/-- `setCache`: `Map.set` of `(data, timestamp)` under the key. -/
def setCache (cache : List (String × CacheVal × Nat)) (key : String)
    (v : CacheVal) (now : Nat) : List (String × CacheVal × Nat) :=
  if cache.any (fun e => e.1 = key) then
    cache.map (fun e => if e.1 = key then (key, v, now) else e)
  else cache ++ [(key, v, now)]

/-- State of `MongoStorage`: the backing student documents (already in
converted form), the user documents, the cache map, and the abstract
backend id allocator. -/
structure MongoState where
  docs : List Student
  users : List User
  cache : List (String × CacheVal × Nat)
  nextOid : Nat
deriving DecidableEq, Repr

/-- Deterministic stand-in for `"students:" + JSON.stringify(filters)`. -/
def filtersKey (f : StudentFilters) : String :=
  let os : Option String → String := fun o =>
    match o with
    | none => "-"
    | some s => "+" ++ s
  let onat : Option Nat → String := fun o =>
    match o with
    | none => "-"
    | some n => "+" ++ toString n
  "students:" ++ os f.status ++ "|" ++ onat f.grade ++ "|" ++ os f.search ++
    "|" ++ os f.sort ++ "|" ++ onat f.page ++ "|" ++ onat f.limit

/-- Mongo compound sort `{ firstName: 1, lastName: 1 }` (raw field values,
no lowercasing). -/
def mongoNameLe (a b : Student) : Prop :=
  if a.firstName = b.firstName then strLe a.lastName b.lastName = true
  else strLe a.firstName b.firstName = true

instance : DecidableRel mongoNameLe := fun a b =>
  inferInstanceAs (Decidable (if a.firstName = b.firstName
    then strLe a.lastName b.lastName = true
    else strLe a.firstName b.firstName = true))

/-- Mongo compound sort `{ firstName: -1, lastName: -1 }`. -/
def mongoNameGe (a b : Student) : Prop := mongoNameLe b a

instance : DecidableRel mongoNameGe := fun a b =>
  inferInstanceAs (Decidable (mongoNameLe b a))

/-- Mongo default sort `{ firstName: 1 }`. -/
def mongoFirstLe (a b : Student) : Prop := strLe a.firstName b.firstName = true

instance : DecidableRel mongoFirstLe := fun a b =>
  inferInstanceAs (Decidable (strLe a.firstName b.firstName = true))

/-- The query `MongoStorage.getStudents` asks the backend to run: equality
filters for status/grade, a case-insensitive `$or` regex (substring) search,
the requested sort, then `skip`/`limit`. -/
def mongoQueryStudents (docs : List Student) (f : StudentFilters) :
    List Student :=
  let l :=
    if truthyStr f.status ∧ f.status ≠ some "all" then
      docs.filter (fun s => s.status = f.status.getD "")
    else docs
  let l :=
    if truthyNat f.grade then l.filter (fun s => some s.grade = f.grade)
    else l
  let l :=
    if truthyStr f.search then
      let q := strToLower (f.search.getD "")
      l.filter (fun s =>
        strIncludes (strToLower s.firstName) q ||
        strIncludes (strToLower s.lastName) q ||
        strIncludes (strToLower s.email) q ||
        strIncludes (strToLower s.studentId) q)
    else l
  let l :=
    if truthyStr f.sort then
      let parts := splitChar '_' (f.sort.getD "")
      let field := parts.headD ""
      let direction := (parts.drop 1).headD ""
      if field = "name" then
        if direction = "asc" then l.insertionSort mongoNameLe
        else l.insertionSort mongoNameGe
      else if field = "id" then
        if direction = "asc" then l.insertionSort codeLe
        else l.insertionSort codeGe
      else l
    else l.insertionSort mongoFirstLe
  if truthyNat f.page ∧ truthyNat f.limit then
    (l.drop ((f.page.getD 0 - 1) * f.limit.getD 0)).take (f.limit.getD 0)
  else l

/-- `MongoStorage.getStudents`: serve from the cache when fresh, otherwise
run the query and cache the result. -/
def MongoState.getStudents (st : MongoState) (f : StudentFilters)
    (now : Nat) : List Student × MongoState :=
  match getCached st.cache (filtersKey f) now with
  | some (.studentsVal l) => (l, st)
  | _ =>
    let res := mongoQueryStudents st.docs f
    (res,
      { st with cache := setCache st.cache (filtersKey f) (.studentsVal res) now })

/-- `MongoStorage.getStudent`: cached per-id lookup over the full
`getStudents()` result. -/
def MongoState.getStudent (st : MongoState) (id : Nat) (now : Nat) :
    Option Student × MongoState :=
  match getCached st.cache ("student:" ++ toString id) now with
  | some (.studentVal s) => (some s, st)
  | _ =>
    let (students, st1) := st.getStudents {} now
    match students.find? (fun s => s.id = id) with
    | some s =>
      (some s,
        { st1 with
            cache := setCache st1.cache ("student:" ++ toString id) (.studentVal s) now })
    | none => (none, st1)

/-- Conditions under which a `StudentModel` save succeeds, from the schema
declaration: `studentId` present, non-empty and unique; `status`, when
present, in the enumeration (it has a default when absent). -/
def mongoSaveOk (docs : List Student) (s : InsertStudent) : Bool :=
  (match s.studentId with
   | none => false
   | some c => c ≠ "" && docs.all (fun d => d.studentId ≠ c)) &&
  (match s.status with
   | none => true
   | some v => decide (v ∈ validStatuses))

/-- `MongoStorage.createStudent`: save (or fail) then invalidate the whole
cache; the returned record is `convertToStudent` of the saved document. -/
def MongoState.createStudent (st : MongoState) (s : InsertStudent) :
    Except Unit Student × MongoState :=
  if mongoSaveOk st.docs s then
    let doc : Student :=
      { id := st.nextOid
        studentId := s.studentId.getD ""
        firstName := s.firstName
        lastName := s.lastName
        email := s.email
        phone := some (s.phone.getD "")
        grade := s.grade
        classSection := some (s.classSection.getD "")
        address := some (s.address.getD "")
        notes := some (s.notes.getD "")
        status := s.status.getD "active"
        userId := none }
    (.ok doc,
      { st with docs := st.docs ++ [doc], nextOid := st.nextOid + 1, cache := [] })
  else (.error (), st)

/-- Replace the first element satisfying the predicate. -/
def replaceFirst {α : Type} (l : List α) (p : α → Bool) (v : α) : List α :=
  match l with
  | [] => []
  | x :: xs => if p x then v :: xs else x :: replaceFirst xs p v

/-- Remove the first element satisfying the predicate. -/
def removeFirst {α : Type} (l : List α) (p : α → Bool) : List α :=
  match l with
  | [] => []
  | x :: xs => if p x then xs else x :: removeFirst xs p

/-- `findOneAndUpdate` field merge (`$set` of the supplied fields; the
update path does not run the enum validator). -/
def mongoApplyUpdate (doc : Student) (d : PartialInsertStudent) : Student :=
  { id := doc.id
    studentId := d.studentId.getD doc.studentId
    firstName := d.firstName.getD doc.firstName
    lastName := d.lastName.getD doc.lastName
    email := d.email.getD doc.email
    phone := (d.phone.map some).getD doc.phone
    grade := d.grade.getD doc.grade
    classSection := (d.classSection.map some).getD doc.classSection
    address := (d.address.map some).getD doc.address
    notes := (d.notes.map some).getD doc.notes
    status := d.status.getD doc.status
    userId := doc.userId }

/-- `MongoStorage.updateStudent`: resolve the numeric id through the cached
`getStudent`, update the first document with that student code, invalidate
the whole cache. -/
def MongoState.updateStudent (st : MongoState) (id : Nat)
    (d : PartialInsertStudent) (now : Nat) : Option Student × MongoState :=
  let (stuOpt, st1) := st.getStudent id now
  match stuOpt with
  | none => (none, st1)
  | some student =>
    match st1.docs.find? (fun dd => dd.studentId = student.studentId) with
    | none => (none, st1)
    | some doc =>
      let updated := mongoApplyUpdate doc d
      (some updated,
        { st1 with
            docs := replaceFirst st1.docs (fun dd => dd.studentId = student.studentId) updated
            cache := [] })

/-- `MongoStorage.deleteStudent`: resolve the id, `deleteOne` by student
code, invalidate the whole cache, report `deletedCount == 1`. -/
def MongoState.deleteStudent (st : MongoState) (id : Nat) (now : Nat) :
    Bool × MongoState :=
  let (stuOpt, st1) := st.getStudent id now
  match stuOpt with
  | none => (false, st1)
  | some student =>
    let existed := st1.docs.any (fun dd => dd.studentId = student.studentId)
    (existed,
      { st1 with
          docs := removeFirst st1.docs (fun dd => dd.studentId = student.studentId)
          cache := [] })

/-- `MongoStorage.getUser`: cached lookup by derived numeric id over all
user documents. -/
def MongoState.getUser (st : MongoState) (id : Nat) (now : Nat) :
    Option User × MongoState :=
  match getCached st.cache ("user:" ++ toString id) now with
  | some (.userVal u) => (some u, st)
  | _ =>
    match st.users.find? (fun u => u.id = id) with
    | some u =>
      (some u,
        { st with cache := setCache st.cache ("user:" ++ toString id) (.userVal u) now })
    | none => (none, st)

/-- Conditions under which a `UserModel` save succeeds, from the schema
declaration: username and password present and non-empty, username unique,
role (when present) in the enumeration. -/
def mongoUserSaveOk (users : List User) (u : InsertUser) : Bool :=
  u.username ≠ "" && u.password ≠ "" &&
  users.all (fun x => x.username ≠ u.username) &&
  (match u.role with
   | none => true
   | some r => decide (r ∈ validRoles))

/-- `MongoStorage.createUser`: save (or fail) then invalidate the whole
cache. -/
def MongoState.createUser (st : MongoState) (u : InsertUser) (now : Nat) :
    Except Unit User × MongoState :=
  if mongoUserSaveOk st.users u then
    let user : User :=
      { id := st.nextOid
        username := u.username
        password := u.password
        role := u.role.getD "student"
        createdAt := now
        lastLogin := none }
    (.ok user,
      { st with users := st.users ++ [user], nextOid := st.nextOid + 1, cache := [] })
  else (.error (), st)

/-- `MongoStorage.updateUser`: resolve the id through the cached `getUser`,
find the backing document, `findByIdAndUpdate` with the supplied fields,
invalidate the whole cache. -/
def MongoState.updateUser (st : MongoState) (id : Nat) (d : PartialUser)
    (now : Nat) : Option User × MongoState :=
  let (uOpt, st1) := st.getUser id now
  match uOpt with
  | none => (none, st1)
  | some _ =>
    match st1.users.find? (fun u => u.id = id) with
    | none => (none, st1)
    | some userDoc =>
      let updated : User :=
        { id := userDoc.id
          username := d.username.getD userDoc.username
          password := d.password.getD userDoc.password
          role := d.role.getD userDoc.role
          createdAt := d.createdAt.getD userDoc.createdAt
          lastLogin := d.lastLogin.getD userDoc.lastLogin }
      (some updated,
        { st1 with
            users := replaceFirst st1.users (fun u => u.id = userDoc.id) updated
            cache := [] })

/-- States of the in-memory backend reachable from the constructor through
the write operations. -/
inductive Reachable : MemState → Prop where
  | init : Reachable MemState.init
  | createStudent {st} (s : InsertStudent) :
      Reachable st → Reachable (st.createStudent s).2
  | updateStudent {st} (id : Nat) (d : PartialInsertStudent) :
      Reachable st → Reachable (st.updateStudent id d).2
  | deleteStudent {st} (id : Nat) :
      Reachable st → Reachable (st.deleteStudent id).2
  | createUser {st} (u : InsertUser) (now : Nat) :
      Reachable st → Reachable (st.createUser u now).2
  | updateUser {st} (id : Nat) (d : PartialUser) :
      Reachable st → Reachable (st.updateUser id d).2

/-! ### Order-theoretic facts about the comparator relations -/

theorem charListLe_refl : ∀ x : List Char, charListLe x x = true := by
  intro x
  induction x with
  | nil => rfl
  | cons a as ih => simp [charListLe, lt_irrefl, ih]

theorem charListLe_total : ∀ x y : List Char,
    charListLe x y = true ∨ charListLe y x = true := by
  intro x
  induction x with
  | nil => intro y; left; rfl
  | cons a as ih =>
    intro y
    cases y with
    | nil => right; rfl
    | cons b bs =>
      rcases lt_trichotomy a b with hab | hab | hab
      · left; simp [charListLe, hab]
      · subst hab
        rcases ih bs with h | h
        · left; simp [charListLe, lt_irrefl, h]
        · right; simp [charListLe, lt_irrefl, h]
      · right; simp [charListLe, hab]

theorem charListLe_trans : ∀ x y z : List Char,
    charListLe x y = true → charListLe y z = true → charListLe x z = true := by
  intro x
  induction x with
  | nil => intro y z _ _; rfl
  | cons a as ih =>
    intro y z hxy hyz
    cases y with
    | nil => simp [charListLe] at hxy
    | cons b bs =>
      cases z with
      | nil => simp [charListLe] at hyz
      | cons c cs =>
        by_cases hab : a < b
        · by_cases hbc : b < c
          · simp [charListLe, lt_trans hab hbc]
          · by_cases hcb : c < b
            · simp [charListLe, hbc, hcb] at hyz
            · have hbceq : b = c := le_antisymm (not_lt.mp hcb) (not_lt.mp hbc)
              subst hbceq
              simp [charListLe, hab]
        · by_cases hba : b < a
          · simp [charListLe, hab, hba] at hxy
          · have habeq : a = b := le_antisymm (not_lt.mp hba) (not_lt.mp hab)
            subst habeq
            by_cases hac : a < c
            · simp [charListLe, hac]
            · by_cases hca : c < a
              · simp [charListLe, hac, hca] at hyz
              · simp only [charListLe, if_neg hab, if_neg hab] at hxy
                simp only [charListLe, if_neg hac, if_neg hca] at hyz
                simp [charListLe, hac, hca, ih bs cs hxy hyz]

instance : IsTotal Student nameLe :=
  ⟨fun a b => charListLe_total (fullNameLower a).data (fullNameLower b).data⟩

instance : IsTrans Student nameLe :=
  ⟨fun a b c hab hbc =>
    charListLe_trans (fullNameLower a).data (fullNameLower b).data
      (fullNameLower c).data hab hbc⟩

/-! ### Pipeline decomposition lemmas -/

theorem getStudents_eq (st : MemState) (f : StudentFilters) :
    st.getStudents f =
      applyPagination f.page f.limit (applySort f.sort (applyFilters f st.studentList)) :=
  rfl

theorem applySort_none (l : List Student) :
    applySort none l = l.insertionSort nameLe := rfl

theorem applySort_empty (l : List Student) :
    applySort (some "") l = l.insertionSort nameLe := rfl

theorem applySort_name_asc (l : List Student) :
    applySort (some "name_asc") l = l.insertionSort nameLe := rfl

theorem applySort_unknown (s : String) (l : List Student) (hs : s ≠ "")
    (hname : (splitChar '_' s).headD "" ≠ "name")
    (hid : (splitChar '_' s).headD "" ≠ "id") :
    applySort (some s) l = l := by
  simp only [List.headD_eq_head?] at hname hid
  simp [applySort, truthyStr, hs, hname, hid]

theorem mem_applySort {sort : Option String} {l : List Student} {s : Student} :
    s ∈ applySort sort l ↔ s ∈ l := by
  unfold applySort
  cases sort with
  | none => simp [truthyStr, List.mem_insertionSort]
  | some str =>
    by_cases hs : str = ""
    · simp [truthyStr, hs, List.mem_insertionSort]
    · simp only [truthyStr, hs]
      split_ifs <;> simp [List.mem_insertionSort]

theorem applyPagination_none_left (limit : Option Nat) (l : List Student) :
    applyPagination none limit l = l := by
  simp [applyPagination, truthyNat]

theorem applyPagination_none_right (page : Option Nat) (l : List Student) :
    applyPagination page none l = l := by
  simp [applyPagination, truthyNat]

/-! ### Concrete sample data for witnesses and counterexamples -/

/-- A minimal well-formed create input. -/
def sampleInsert (fn ln code : String) : InsertStudent :=
  { studentId := some code, firstName := fn, lastName := ln,
    email := strToLower fn ++ "@example.com", grade := 10 }

/-- One student stored (Bob Zed, code S2, active). -/
def sampleStateBZ : MemState :=
  (MemState.init.createStudent (sampleInsert "Bob" "Zed" "S2")).2

/-- The stored Bob record. -/
def sampleBob : Student :=
  (MemState.init.createStudent (sampleInsert "Bob" "Zed" "S2")).1

/-- Two students stored in the order Bob Zed, then Alice Young. -/
def sampleStateAB : MemState :=
  (sampleStateBZ.createStudent (sampleInsert "Alice" "Young" "S1")).2

/-- The stored Alice record. -/
def sampleAlice : Student :=
  (sampleStateBZ.createStudent (sampleInsert "Alice" "Young" "S1")).1

/-! ### Claim theorems -/

/-- C1: the in-memory `createStudent` accepts a supplied student code that
duplicates a stored one — no uniqueness check is performed and no error is
raised, so after two creates with the same code the stored codes are not
pairwise distinct, contradicting the specified PersistenceError and the
uniqueness invariant declared by the schema (`unique: true`). -/
theorem c1_duplicate_code_stored :
    (((MemState.init.createStudent (sampleInsert "John" "Doe" "ST10023")).2.createStudent
        (sampleInsert "Jane" "Smith" "ST10023")).2.studentList.map Student.studentId =
      ["ST10023", "ST10023"]) ∧
    ¬ (((MemState.init.createStudent (sampleInsert "John" "Doe" "ST10023")).2.createStudent
        (sampleInsert "Jane" "Smith" "ST10023")).2.studentList.map Student.studentId).Nodup := by
  decide

/-- C2 counterexample: with the unknown sort key `"grade_asc"`,
`getStudents` does not return the default name-ascending ordering: the
records come back in unsorted insertion order `[Bob, Alice]`, while the
default ordering (as produced with no `sort` filter) is `[Alice, Bob]`; in
particular the result is not name-sorted at all. -/
theorem c2_unknown_sort_counterexample :
    ((sampleStateAB.getStudents { sort := some "grade_asc" }).map Student.firstName =
      ["Bob", "Alice"]) ∧
    ((sampleStateAB.getStudents {}).map Student.firstName = ["Alice", "Bob"]) ∧
    sampleStateAB.getStudents { sort := some "grade_asc" } ≠
      (sampleStateAB.getStudents { sort := some "grade_asc" }).insertionSort nameLe := by
  decide

/-- C2 amended: when the `sort` filter is absent (or empty, hence falsy),
`getStudents` applies the default case-insensitive full-name ascending
ordering; but when `sort` is present with a field component other than
`name` or `id`, the filtered records are returned in their original order
with no sorting applied (not in the default ordering). -/
theorem c2_sort_fallback_amended (st : MemState) (f : StudentFilters) :
    ((f.sort = none ∨ f.sort = some "") →
      st.getStudents f =
        applyPagination f.page f.limit
          ((applyFilters f st.studentList).insertionSort nameLe)) ∧
    (∀ s, f.sort = some s → s ≠ "" →
      (splitChar '_' s).headD "" ≠ "name" →
      (splitChar '_' s).headD "" ≠ "id" →
      st.getStudents f =
        applyPagination f.page f.limit (applyFilters f st.studentList)) := by
  constructor
  · rintro (h | h) <;> rw [getStudents_eq, h] <;> rfl
  · intro s hs hne hname hid
    rw [getStudents_eq, hs, applySort_unknown s _ hne hname hid]

/-- C2 witness: the amended statement applied to the two-student state and
the unknown sort key `"grade_asc"`. -/
theorem c2_sort_fallback_witness :
    sampleStateAB.getStudents { sort := some "grade_asc" } =
      applyPagination none none
        (applyFilters { sort := some "grade_asc" } sampleStateAB.studentList) :=
  (c2_sort_fallback_amended sampleStateAB { sort := some "grade_asc" }).2
    "grade_asc" rfl (by decide) (by decide) (by decide)

/-- C7 counterexample: the status value `""` is different from `"all"`, yet
filtering by it returns a record whose status (`"active"`) differs from it —
the empty string is falsy, so the status filter is silently disabled rather
than applied. -/
theorem c7_empty_status_counterexample :
    ("" ≠ "all") ∧
    ((sampleStateBZ.getStudents { status := some "" }).map Student.status =
      ["active"]) ∧
    ("active" ≠ "") := by
  decide

/-- C7 amended: for every non-empty status value `x` other than `"all"`,
`getStudents` with `status = x` returns exactly the stored records whose
status equals `x`; `status = "all"`, `status = ""` and an absent status all
disable the status filter, and `grade = 0` (like an absent grade) disables
the grade filter, while a non-zero grade filters by equality. -/
theorem c7_status_filter_amended (st : MemState) (x : String) (s : Student)
    (g : Nat) (hx : x ≠ "") (hall : x ≠ "all") :
    (s ∈ st.getStudents { status := some x } ↔
      s ∈ st.studentList ∧ s.status = x) ∧
    (∀ f : StudentFilters, st.getStudents { f with status := some "all" } =
      st.getStudents { f with status := none }) ∧
    (∀ f : StudentFilters, st.getStudents { f with status := some "" } =
      st.getStudents { f with status := none }) ∧
    (∀ f : StudentFilters, st.getStudents { f with grade := some 0 } =
      st.getStudents { f with grade := none }) ∧
    (g ≠ 0 →
      (s ∈ st.getStudents { grade := some g } ↔
        s ∈ st.studentList ∧ s.grade = g)) := by
  refine ⟨?_, ?_, ?_, ?_, ?_⟩
  · rw [getStudents_eq, applyPagination_none_left, mem_applySort]
    simp [applyFilters, truthyStr, truthyNat, hx, hall, List.mem_filter]
  · intro f
    rw [getStudents_eq, getStudents_eq]
    simp [applyFilters, truthyStr]
  · intro f
    rw [getStudents_eq, getStudents_eq]
    simp [applyFilters, truthyStr]
  · intro f
    rw [getStudents_eq, getStudents_eq]
    simp [applyFilters, truthyNat]
  · intro hg
    rw [getStudents_eq, applyPagination_none_left, mem_applySort]
    simp [applyFilters, truthyStr, truthyNat, hg, List.mem_filter, eq_comm]

/-- C7 witness: the amended statement applied with `x = "inactive"` on the
one-student (active) state: the record is not returned. -/
theorem c7_status_filter_witness :
    ¬ (sampleBob ∈ sampleStateBZ.getStudents { status := some "inactive" }) :=
  fun hmem =>
    absurd
      (((c7_status_filter_amended sampleStateBZ "inactive" sampleBob 0
          (by decide) (by decide)).1).mp hmem).2
      (by decide)

/-- C8: the `name_asc` sort of `getStudents` is idempotent on every list
(applying it twice yields the same order as applying it once) and stable
(any two students with identical first and last names keep their relative
order). -/
theorem c8_name_sort_idempotent_stable (l : List Student) :
    (applySort (some "name_asc") (applySort (some "name_asc") l) =
      applySort (some "name_asc") l) ∧
    (∀ a b : Student, a.firstName = b.firstName → a.lastName = b.lastName →
      List.Sublist [a, b] l →
      List.Sublist [a, b] (applySort (some "name_asc") l)) := by
  simp only [applySort_name_asc]
  constructor
  · exact List.Sorted.insertionSort_eq (List.sorted_insertionSort nameLe l)
  · intro a b h1 h2 hsub
    refine List.pair_sublist_insertionSort ?_ hsub
    show strLe (fullNameLower a) (fullNameLower b) = true
    have he : fullNameLower a = fullNameLower b := by
      unfold fullNameLower; rw [h1, h2]
    rw [he]
    exact charListLe_refl (fullNameLower b).data

/-- Two distinct records with identical names. -/
def sampleTwinA : Student :=
  { id := 1, studentId := "T1", firstName := "Ann", lastName := "Lee",
    email := "a@x.com", phone := none, grade := 9, classSection := none,
    address := none, notes := none, status := "active", userId := none }

/-- Second twin, stored after the first. -/
def sampleTwinB : Student :=
  { id := 2, studentId := "T2", firstName := "Ann", lastName := "Lee",
    email := "b@x.com", phone := none, grade := 9, classSection := none,
    address := none, notes := none, status := "active", userId := none }

/-- C8 witness: idempotence and stability on a concrete two-element list of
same-named students. -/
theorem c8_name_sort_witness :
    applySort (some "name_asc") (applySort (some "name_asc") [sampleTwinA, sampleTwinB]) =
      applySort (some "name_asc") [sampleTwinA, sampleTwinB] ∧
    List.Sublist [sampleTwinA, sampleTwinB] (applySort (some "name_asc") [sampleTwinA, sampleTwinB]) :=
  ⟨(c8_name_sort_idempotent_stable [sampleTwinA, sampleTwinB]).1,
   (c8_name_sort_idempotent_stable [sampleTwinA, sampleTwinB]).2 sampleTwinA sampleTwinB
     rfl rfl (List.Sublist.refl _)⟩

/-- C4: with a non-empty search string and no other filters, `getStudents`
returns a record exactly when the lowercased search string is a substring of
the record's lowercased first name, last name, email, or student code. -/
theorem c4_search_membership (st : MemState) (q : String) (s : Student)
    (hq : q ≠ "") :
    s ∈ st.getStudents { search := some q } ↔
      s ∈ st.studentList ∧
        ((strToLower q).data <:+: (strToLower s.firstName).data ∨
         (strToLower q).data <:+: (strToLower s.lastName).data ∨
         (strToLower q).data <:+: (strToLower s.email).data ∨
         (strToLower q).data <:+: (strToLower s.studentId).data) := by
  rw [getStudents_eq, applyPagination_none_left, mem_applySort]
  simp [applyFilters, truthyStr, truthyNat, hq, List.mem_filter, strIncludes,
    and_assoc, or_assoc]

/-- C4 witness: searching `"YO"` in the two-student state returns the Alice
Young record. -/
theorem c4_search_witness :
    sampleAlice ∈ sampleStateAB.getStudents { search := some "YO" } :=
  (c4_search_membership sampleStateAB "YO" sampleAlice (by decide)).mpr (by decide)

/-- C5: with 1-based page `p` and positive limit `n`, `getStudents` returns
exactly the slice `[(p-1)*n, p*n)` of the filtered and sorted sequence; a
page starting at or beyond the end of the data yields `[]` (no error), and
an absent page or limit disables pagination entirely. -/
theorem c5_pagination_slice (st : MemState) (f : StudentFilters) (p n : Nat)
    (hp : 1 ≤ p) (hn : 1 ≤ n) :
    (st.getStudents { f with page := some p, limit := some n } =
      ((applySort f.sort (applyFilters f st.studentList)).drop ((p - 1) * n)).take n) ∧
    ((applySort f.sort (applyFilters f st.studentList)).length ≤ (p - 1) * n →
      st.getStudents { f with page := some p, limit := some n } = []) ∧
    (st.getStudents { f with page := none } =
      applySort f.sort (applyFilters f st.studentList)) ∧
    (st.getStudents { f with limit := none } =
      applySort f.sort (applyFilters f st.studentList)) := by
  have hslice :
      st.getStudents { f with page := some p, limit := some n } =
        ((applySort f.sort (applyFilters f st.studentList)).drop ((p - 1) * n)).take n := by
    rw [getStudents_eq]
    show applyPagination (some p) (some n)
        (applySort f.sort (applyFilters f st.studentList)) = _
    simp [applyPagination, truthyNat, Nat.one_le_iff_ne_zero.mp hp,
      Nat.one_le_iff_ne_zero.mp hn]
  refine ⟨hslice, ?_, ?_, ?_⟩
  · intro hlen
    rw [hslice, List.drop_eq_nil_of_le hlen, List.take_nil]
  · rw [getStudents_eq]
    exact applyPagination_none_left _ _
  · rw [getStudents_eq]
    exact applyPagination_none_right _ _

/-- C5 witness: page 2 with limit 1 on the two-student state returns the
second record of the default ordering, and page 3 is beyond the data and
returns the empty list. -/
theorem c5_pagination_witness :
    sampleStateAB.getStudents { page := some 2, limit := some 1 } =
      ((applySort none (applyFilters {} sampleStateAB.studentList)).drop 1).take 1 ∧
    sampleStateAB.getStudents { page := some 3, limit := some 1 } = [] :=
  ⟨(c5_pagination_slice sampleStateAB {} 2 1 (by decide) (by decide)).1,
   (c5_pagination_slice sampleStateAB {} 3 1 (by decide) (by decide)).2.1 (by decide)⟩

/-- C6: `updateStudent` on a missing identifier returns `none` and leaves
the state untouched; on an existing student, an update supplying only
`grade` changes only the grade; and an omitted or invalid status keeps the
previous status. -/
theorem c6_update_frame (st : MemState) (id : Nat) (d : PartialInsertStudent)
    (g : Nat) :
    (st.getStudent id = none → st.updateStudent id d = (none, st)) ∧
    (∀ stu, st.getStudent id = some stu →
      (st.updateStudent id { grade := some g }).1 = some { stu with grade := g }) ∧
    (∀ stu, st.getStudent id = some stu →
      (∀ v, d.status = some v → v ∉ validStatuses) →
      (st.updateStudent id d).1.map Student.status = some stu.status) := by
  refine ⟨?_, ?_, ?_⟩
  · intro h
    have hm : mapGet st.students id = none := h
    simp [MemState.updateStudent, hm]
  · intro stu h
    have hm : mapGet st.students id = some stu := h
    simp [MemState.updateStudent, hm, validateStatusUpdate]
  · intro stu h hstat
    have hm : mapGet st.students id = some stu := h
    simp only [MemState.updateStudent, hm, Option.map_some]
    cases hd : d.status with
    | none => simp [validateStatusUpdate]
    | some v =>
      have hv : v ∉ validStatuses := hstat v hd
      simp [validateStatusUpdate, hv]

/-- C6 witness: updating only the grade of the stored Bob record yields the
same record with the new grade. -/
theorem c6_update_witness :
    (sampleStateBZ.updateStudent 1 { grade := some 12 }).1 =
      some { sampleBob with grade := 12 } :=
  (c6_update_frame sampleStateBZ 1 {} 12).2.1 sampleBob (by decide)

/-- C9: the local strategy succeeds with the stored user record exactly when
a user with the given username exists and the supplied password equals the
stored one; an unknown username and a wrong password both produce the same
rejection value (`AuthResult.rejected`), indistinguishable to the caller. -/
theorem c9_authenticate (st : MemState) (username password : String) :
    (∀ u, localStrategy st username password = .ok u ↔
      st.getUserByUsername username = some u ∧ password = u.password) ∧
    (st.getUserByUsername username = none →
      localStrategy st username password = .rejected) ∧
    (∀ u, st.getUserByUsername username = some u → password ≠ u.password →
      localStrategy st username password = .rejected) := by
  refine ⟨?_, ?_, ?_⟩
  · intro u
    unfold localStrategy
    cases h : st.getUserByUsername username with
    | none => simp
    | some w =>
      by_cases hp : password = w.password
      · have hb : (password == w.password) = true := beq_iff_eq.mpr hp
        simp only [comparePasswords, hb, if_true]
        constructor
        · intro hok
          cases hok
          exact ⟨rfl, hp⟩
        · rintro ⟨hw, _⟩
          cases hw
          rfl
      · have hb : (password == w.password) = false := beq_eq_false_iff_ne.mpr hp
        simp only [comparePasswords, hb, Bool.false_eq_true, if_false]
        constructor
        · intro hok; cases hok
        · rintro ⟨hw, hpw⟩
          cases hw
          exact absurd hpw hp
  · intro h
    unfold localStrategy
    rw [h]
  · intro u h hp
    unfold localStrategy
    rw [h]
    have hb : (password == u.password) = false := beq_eq_false_iff_ne.mpr hp
    simp [comparePasswords, hb]

/-- State holding the development admin account. -/
def sampleAuthState : MemState :=
  (MemState.init.createUser
    { username := "admin", password := "password", role := some "admin" } 0).2

/-- The stored admin user record. -/
def sampleAdmin : User :=
  (MemState.init.createUser
    { username := "admin", password := "password", role := some "admin" } 0).1

/-- C9 witness: correct credentials succeed; an unknown username and a wrong
password both yield the same `rejected` value. -/
theorem c9_authenticate_witness :
    localStrategy sampleAuthState "admin" "password" = .ok sampleAdmin ∧
    localStrategy sampleAuthState "ghost" "x" = .rejected ∧
    localStrategy sampleAuthState "admin" "wrong" = .rejected :=
  ⟨((c9_authenticate sampleAuthState "admin" "password").1 sampleAdmin).mpr
      (by constructor <;> decide),
   (c9_authenticate sampleAuthState "ghost" "x").2.1 (by decide),
   (c9_authenticate sampleAuthState "admin" "wrong").2.2 sampleAdmin
      (by decide) (by decide)⟩

/-! ### Status invariant of the in-memory backend -/

theorem validateStatusCreate_mem (o : Option String) :
    validateStatusCreate o ∈ validStatuses := by
  unfold validateStatusCreate
  cases o with
  | none => simp [validStatuses]
  | some s =>
    show (if s ≠ "" ∧ s ∈ validStatuses then s else "active") ∈ validStatuses
    split_ifs with h
    · exact h.2
    · simp [validStatuses]

theorem validateStatusUpdate_mem (o : Option String) (prev : String)
    (hp : prev ∈ validStatuses) : validateStatusUpdate o prev ∈ validStatuses := by
  unfold validateStatusUpdate
  cases o with
  | none => exact hp
  | some s =>
    show (if s ≠ "" ∧ s ∈ validStatuses then s else prev) ∈ validStatuses
    split_ifs with h
    · exact h.2
    · exact hp

theorem mem_mapSet {α : Type} {m : List (Nat × α)} {k : Nat} {v : α}
    {q : Nat × α} (h : q ∈ mapSet m k v) : q ∈ m ∨ q.2 = v := by
  unfold mapSet at h
  split at h
  · rcases List.mem_map.mp h with ⟨p, hp, he⟩
    by_cases hk : p.1 = k
    · right
      rw [← he]
      simp [hk]
    · left
      rw [← he]
      simpa [hk] using hp
  · rcases List.mem_append.mp h with hm | hm
    · exact Or.inl hm
    · right
      rw [List.mem_singleton.mp hm]

theorem mapGet_mem {α : Type} {m : List (Nat × α)} {k : Nat} {v : α}
    (h : mapGet m k = some v) : v ∈ m.map Prod.snd := by
  unfold mapGet at h
  cases hf : m.find? (fun p => p.1 = k) with
  | none => rw [hf] at h; cases h
  | some p =>
    rw [hf] at h
    cases h
    exact List.mem_map_of_mem _ (List.mem_of_find?_eq_some hf)

theorem createStudent_students (st : MemState) (ins : InsertStudent) :
    ∃ code, (st.createStudent ins).2.students =
      mapSet st.students st.currentId
        { id := st.currentId, studentId := code, firstName := ins.firstName,
          lastName := ins.lastName, email := ins.email, phone := orNull ins.phone,
          grade := ins.grade, classSection := orNull ins.classSection,
          address := orNull ins.address, notes := orNull ins.notes,
          status := validateStatusCreate ins.status, userId := none } := by
  by_cases h : truthyStr ins.studentId
  · exact ⟨ins.studentId.getD "", by simp [MemState.createStudent, h]⟩
  · exact ⟨"ST" ++ toString st.currentStudentIdNum,
      by simp [MemState.createStudent, h]⟩

theorem reachable_status_valid {st : MemState} (h : Reachable st) :
    ∀ s ∈ st.studentList, s.status ∈ validStatuses := by
  induction h with
  | init => intro s hs; cases hs
  | createStudent ins _ ih =>
    intro s hs
    rcases createStudent_students _ ins with ⟨code, hst⟩
    rw [MemState.studentList, hst] at hs
    rcases List.mem_map.mp hs with ⟨q, hq, hqs⟩
    rcases mem_mapSet hq with hold | hnew
    · exact ih s (hqs ▸ List.mem_map_of_mem _ hold)
    · rw [← hqs, hnew]
      exact validateStatusCreate_mem ins.status
  | updateStudent id d _ ih =>
    intro s hs
    rename_i st0 _
    cases hm : mapGet st0.students id with
    | none =>
      simp only [MemState.updateStudent, hm] at hs
      exact ih s hs
    | some stu =>
      simp only [MemState.updateStudent, hm, MemState.studentList] at hs
      rcases List.mem_map.mp hs with ⟨q, hq, hqs⟩
      rcases mem_mapSet hq with hold | hnew
      · exact ih s (hqs ▸ List.mem_map_of_mem _ hold)
      · rw [← hqs, hnew]
        exact validateStatusUpdate_mem d.status stu.status
          (ih stu (mapGet_mem hm))
  | deleteStudent id _ ih =>
    intro s hs
    rename_i st0 _
    simp only [MemState.deleteStudent, mapDelete, MemState.studentList] at hs
    split at hs
    · rcases List.mem_map.mp hs with ⟨q, hq, hqs⟩
      exact ih s (hqs ▸ List.mem_map_of_mem _ (List.mem_of_mem_filter hq))
    · exact ih s hs
  | createUser u now _ ih => exact ih
  | updateUser id d _ ih =>
    intro s hs
    rename_i st0 _
    cases hm : mapGet st0.users id with
    | none =>
      simp only [MemState.updateUser, hm] at hs
      exact ih s hs
    | some usr =>
      simp only [MemState.updateUser, hm, MemState.studentList] at hs
      exact ih s hs

theorem length_eq_status_counts (l : List Student)
    (h : ∀ s ∈ l, s.status ∈ validStatuses) :
    l.length = (l.filter (fun s => s.status = "active")).length +
      (l.filter (fun s => s.status = "pending")).length +
      (l.filter (fun s => s.status = "inactive")).length := by
  induction l with
  | nil => rfl
  | cons a as ih =>
    have ha := h a (List.mem_cons_self a as)
    have ih' := ih (fun s hs => h s (List.mem_cons_of_mem a hs))
    simp only [validStatuses, List.mem_cons, List.mem_singleton,
      List.not_mem_nil, or_false] at ha
    rcases ha with ha | ha | ha <;>
      simp [List.filter_cons, ha, List.length_cons, ih'] <;> omega

/-- C10: in every reachable in-memory state, every stored student's status
is one of `active`, `inactive`, `pending`, and consequently
`getStudentStats` satisfies
`totalStudents = activeStudents + pendingApprovals + issuesReported`. -/
theorem c10_status_invariant_stats (st : MemState) (h : Reachable st) :
    (∀ s ∈ st.studentList, s.status ∈ validStatuses) ∧
    st.getStudentStats.totalStudents =
      st.getStudentStats.activeStudents + st.getStudentStats.pendingApprovals +
        st.getStudentStats.issuesReported := by
  have hval := reachable_status_valid h
  refine ⟨hval, ?_⟩
  simp only [MemState.getStudentStats]
  exact length_eq_status_counts _ hval

/-- State reached by creating a student with the out-of-range status
`"weird"` (which the create path replaces with `"active"`). -/
def sampleWeirdState : MemState :=
  (MemState.init.createStudent
    { studentId := some "S9", firstName := "Eve", lastName := "Fox",
      email := "e@x.com", grade := 9, status := some "weird" }).2

/-- C10 witness: the stats identity at a concrete reachable state built with
an invalid requested status. -/
theorem c10_status_invariant_witness :
    sampleWeirdState.getStudentStats.totalStudents =
      sampleWeirdState.getStudentStats.activeStudents +
        sampleWeirdState.getStudentStats.pendingApprovals +
        sampleWeirdState.getStudentStats.issuesReported :=
  (c10_status_invariant_stats sampleWeirdState
    (Reachable.createStudent _ Reachable.init)).2

/-- C3: every write operation of the document-store backend that performs a
write (successful create/update/delete of either entity type) leaves the
cache entirely cleared; an empty cache answers no lookup, so the next read
is computed fresh from the backend — it can never serve stale pre-write
data. -/
theorem c3_cache_cleared_on_write (st : MongoState) (s : InsertStudent)
    (id : Nat) (d : PartialInsertStudent) (u : InsertUser) (du : PartialUser)
    (now : Nat) (f : StudentFilters) :
    (∀ x, (st.createStudent s).1 = .ok x → (st.createStudent s).2.cache = []) ∧
    (∀ x, (st.updateStudent id d now).1 = some x →
      (st.updateStudent id d now).2.cache = []) ∧
    ((st.deleteStudent id now).1 = true → (st.deleteStudent id now).2.cache = []) ∧
    (∀ x, (st.createUser u now).1 = .ok x → (st.createUser u now).2.cache = []) ∧
    (∀ x, (st.updateUser id du now).1 = some x →
      (st.updateUser id du now).2.cache = []) ∧
    (∀ key n2, getCached [] key n2 = none) ∧
    (∀ st2 : MongoState, st2.cache = [] →
      (st2.getStudents f now).1 = mongoQueryStudents st2.docs f) := by
  refine ⟨?_, ?_, ?_, ?_, ?_, ?_, ?_⟩
  · intro x hx
    by_cases hc : mongoSaveOk st.docs s
    · simp [MongoState.createStudent, hc]
    · simp [MongoState.createStudent, hc] at hx
  · intro x hx
    rcases hg : st.getStudent id now with ⟨stuOpt, st1⟩
    cases stuOpt with
    | none => simp [MongoState.updateStudent, hg] at hx
    | some stu =>
      cases hf2 : st1.docs.find? (fun dd => dd.studentId = stu.studentId) with
      | none => simp [MongoState.updateStudent, hg, hf2] at hx
      | some doc => simp [MongoState.updateStudent, hg, hf2]
  · intro hx
    rcases hg : st.getStudent id now with ⟨stuOpt, st1⟩
    cases stuOpt with
    | none => simp [MongoState.deleteStudent, hg] at hx
    | some stu => simp [MongoState.deleteStudent, hg]
  · intro x hx
    by_cases hc : mongoUserSaveOk st.users u
    · simp [MongoState.createUser, hc]
    · simp [MongoState.createUser, hc] at hx
  · intro x hx
    rcases hg : st.getUser id now with ⟨uOpt, st1⟩
    cases uOpt with
    | none => simp [MongoState.updateUser, hg] at hx
    | some usr =>
      cases hf2 : st1.users.find? (fun w => w.id = id) with
      | none => simp [MongoState.updateUser, hg, hf2] at hx
      | some userDoc => simp [MongoState.updateUser, hg, hf2]
  · intro key n2
    rfl
  · intro st2 h2
    simp [MongoState.getStudents, h2, getCached]

/-- A document-store state with a populated cache, about to take a write. -/
def sampleMongoSt : MongoState :=
  { docs := [], users := [],
    cache := [("students:-|-|-|-|-|-", .studentsVal [], 0)], nextOid := 3 }

/-- C3 witness: creating a student on the concrete cached state clears the
cache, and the read that follows is computed from the post-write documents. -/
theorem c3_cache_cleared_witness :
    (sampleMongoSt.createStudent (sampleInsert "Ann" "Poe" "M1")).2.cache = [] ∧
    ((sampleMongoSt.createStudent (sampleInsert "Ann" "Poe" "M1")).2.getStudents {} 50).1 =
      mongoQueryStudents (sampleMongoSt.createStudent (sampleInsert "Ann" "Poe" "M1")).2.docs {} :=
  ⟨(c3_cache_cleared_on_write sampleMongoSt (sampleInsert "Ann" "Poe" "M1") 0 {}
      ⟨"u", "p", none⟩ {} 50 {}).1 _ rfl,
   (c3_cache_cleared_on_write sampleMongoSt (sampleInsert "Ann" "Poe" "M1") 0 {}
      ⟨"u", "p", none⟩ {} 50 {}).2.2.2.2.2.2 _
     ((c3_cache_cleared_on_write sampleMongoSt (sampleInsert "Ann" "Poe" "M1") 0 {}
        ⟨"u", "p", none⟩ {} 50 {}).1 _ rfl)⟩

end StudentTrack
